import Mathlib

/-!
# Verification of the MyGit core (src/git/starter/mygit.py)

A shallow embedding of the content-addressed object store, staging index,
commit graph and branch manager of the `MyGit` class, together with proofs
of the specification's testable properties.

Modelling conventions:
* bytes are `List Nat` (each element < 256 for real byte strings);
* the filesystem under `.mygit/` is a record of parsed file contents
  (`RepoState`); `initialized` says whether the control directory and its
  standard subdirectories exist (they are only ever created together, by
  `init`);
* Python exceptions are an explicit `GitErr` sum, `Except` models raising;
  stateful methods return `Except GitErr α × RepoState` so that the state
  at the moment an exception propagates is visible;
* `zlib.compress`/`zlib.decompress` form a lossless codec; the codec is
  modelled as the identity coding on byte lists, which is the only property
  of it the program relies on;
* SHA-1 is implemented in full (padding, message schedule, 80 rounds) over
  byte lists, and `hexdigest` as `sha1Hex`.
-/

set_option maxRecDepth 100000

namespace MyGitModel

/-- The UTF-8 encoding of a single character, as the list of its bytes
(models Python `str.encode()` character by character). -/
def utf8EncodeChar (c : Char) : List Nat :=
  let n := c.toNat
  if n < 128 then [n]
  else if n < 2048 then [192 ||| (n >>> 6), 128 ||| (n &&& 63)]
  else if n < 65536 then
    [224 ||| (n >>> 12), 128 ||| ((n >>> 6) &&& 63), 128 ||| (n &&& 63)]
  else
    [240 ||| (n >>> 18), 128 ||| ((n >>> 12) &&& 63),
     128 ||| ((n >>> 6) &&& 63), 128 ||| (n &&& 63)]

/-- Models Python `str.encode()` (UTF-8). -/
def pyEncode (s : String) : List Nat :=
  s.data.flatMap utf8EncodeChar

/-- Models `bytes.decode()` restricted to the ASCII payloads this program
produces (object headers are always ASCII); multi-byte sequences are not
decoded. -/
def asciiDecode? (bs : List Nat) : Option String :=
  if bs.all (fun b => b < 128) then some (String.mk (bs.map Char.ofNat)) else none

/-- Whether `pat` is a prefix of `l` (character comparison). -/
def startsWithChars : List Char → List Char → Bool
  | [], _ => true
  | _ :: _, [] => false
  | p :: ps, c :: cs => p = c && startsWithChars ps cs

/-- Whether `pat` occurs as a contiguous substring of `l`; models
`re.search` of a literal pattern. -/
def containsSub (pat : List Char) : List Char → Bool
  | [] => pat.isEmpty
  | c :: cs => startsWithChars pat (c :: cs) || containsSub pat cs

/-- Models Python `s.startswith(pre)` (code-point comparison). -/
def pyStartsWith (s pre : String) : Bool :=
  startsWithChars pre.data s.data

/-- Models the Python slice `s[n:]` (by code points). -/
def pyDrop (s : String) (n : Nat) : String :=
  String.mk (s.data.drop n)

/-- Models the Python slice `s[:n]` (by code points). -/
def pyTake (s : String) (n : Nat) : String :=
  String.mk (s.data.take n)

/-- The characters removed by Python `str.strip()` (ASCII whitespace; the
strings this program strips never contain other Unicode whitespace). -/
def pyIsSpace (c : Char) : Bool :=
  c = ' ' || c = '\t' || c = '\n' || c = '\r' || c = '\x0b' || c = '\x0c'

/-- Models Python `str.strip()`. -/
def pyStrip (s : String) : String :=
  String.mk (((s.data.dropWhile pyIsSpace).reverse.dropWhile pyIsSpace).reverse)

/-- Models Python `str.lower()` on the ASCII range (the program only lowers
hexadecimal digest strings). -/
def pyCharLower (c : Char) : Char :=
  if 'A' ≤ c && c ≤ 'Z' then Char.ofNat (c.toNat + 32) else c

/-- Models Python `str.lower()`. -/
def pyLower (s : String) : String :=
  String.mk (s.data.map pyCharLower)

/-- The sixteen lowercase hexadecimal digits, i.e. the characters of the
Python literal `'0123456789abcdef'` used by `read_object`. -/
def hexChars : List Char :=
  "0123456789abcdef".data

/-- The hexadecimal digit character for a value below 16. -/
def hexDigitChar (n : Nat) : Char :=
  match n with
  | 0 => '0' | 1 => '1' | 2 => '2' | 3 => '3' | 4 => '4'
  | 5 => '5' | 6 => '6' | 7 => '7' | 8 => '8' | 9 => '9'
  | 10 => 'a' | 11 => 'b' | 12 => 'c' | 13 => 'd' | 14 => 'e'
  | _ => 'f'

/-- Value of a hexadecimal digit character, as accepted by Python
`bytes.fromhex` (both cases). -/
def hexVal? (c : Char) : Option Nat :=
  if '0' ≤ c && c ≤ '9' then some (c.toNat - 48)
  else if 'a' ≤ c && c ≤ 'f' then some (c.toNat - 87)
  else if 'A' ≤ c && c ≤ 'F' then some (c.toNat - 55)
  else none

/-- Pairs of hexadecimal digits to bytes; models `bytes.fromhex` on the
whitespace-free digest strings this program stores. -/
def bytesFromHexChars : List Char → Option (List Nat)
  | [] => some []
  | [_] => none
  | c1 :: c2 :: rest =>
    match hexVal? c1, hexVal? c2, bytesFromHexChars rest with
    | some h, some l, some bs => some ((16 * h + l) :: bs)
    | _, _, _ => none

/-- Models Python `bytes.fromhex(s)`. -/
def bytesFromHex? (s : String) : Option (List Nat) :=
  bytesFromHexChars s.data

/-- Decimal digits with explicit fuel (structural recursion keeps the
function kernel-reducible; any fuel above the number works). -/
def natToDecCharsAux : Nat → Nat → List Char
  | 0, _ => []
  | fuel + 1, n =>
    if n < 10 then [hexDigitChar n]
    else natToDecCharsAux fuel (n / 10) ++ [hexDigitChar (n % 10)]

/-- Decimal digits of a natural number, most significant first
(the digits of Python `f"{n}"`). -/
def natToDecChars (n : Nat) : List Char :=
  natToDecCharsAux (n + 1) n

/-- Models Python decimal formatting `f"{n}"` of a nonnegative integer. -/
def natToDecStr (n : Nat) : String :=
  String.mk (natToDecChars n)

/-- Octal digits with explicit fuel. -/
def natToOctCharsAux : Nat → Nat → List Char
  | 0, _ => []
  | fuel + 1, n =>
    if n < 8 then [hexDigitChar n]
    else natToOctCharsAux fuel (n / 8) ++ [hexDigitChar (n % 8)]

/-- Octal digits of a natural number, most significant first. -/
def natToOctChars (n : Nat) : List Char :=
  natToOctCharsAux (n + 1) n

/-- Models `oct(n)[2:]` from `create_tree` (octal digits without the `0o`
marker; file modes are nonnegative). -/
def octStr (n : Nat) : String :=
  String.mk (natToOctChars n)

/-- Models `int(s)` on the nonnegative decimal numerals this program writes
into object headers. -/
def pyParseNat? (l : List Char) : Option Nat :=
  if l ≠ [] ∧ l.all Char.isDigit then
    some (l.foldl (fun a c => 10 * a + (c.toNat - 48)) 0)
  else none

/-- Splitting a character list on every occurrence of a separator; models
Python `str.split(sep)` with an explicit one-character separator. -/
def splitOnChar (sep : Char) : List Char → List (List Char)
  | [] => [[]]
  | c :: cs =>
    match splitOnChar sep cs with
    | [] => [[]]
    | g :: gs => if c = sep then [] :: g :: gs else (c :: g) :: gs

/-! ## SHA-1 (FIPS 180-1), over byte lists -/

/-- Truncation to a 32-bit word. -/
def w32 (n : Nat) : Nat := n % 4294967296

/-- Truncation to a 64-bit word (for the message-length field). -/
def w64 (n : Nat) : Nat := n % 18446744073709551616

/-- 32-bit left rotation (the argument is assumed < 2^32). -/
def rotl32 (x n : Nat) : Nat := w32 ((x <<< n) ||| (x >>> (32 - n)))

/-- A big-endian 32-bit word from four bytes. -/
def wordBE (b0 b1 b2 b3 : Nat) : Nat := ((b0 * 256 + b1) * 256 + b2) * 256 + b3

/-- Groups a byte list into big-endian 32-bit words. -/
def toWordsBE : List Nat → List Nat
  | b0 :: b1 :: b2 :: b3 :: rest => wordBE b0 b1 b2 b3 :: toWordsBE rest
  | _ => []

/-- The eight big-endian bytes of a 64-bit value. -/
def lenBytesBE (n : Nat) : List Nat :=
  [(n >>> 56) &&& 255, (n >>> 48) &&& 255, (n >>> 40) &&& 255, (n >>> 32) &&& 255,
   (n >>> 24) &&& 255, (n >>> 16) &&& 255, (n >>> 8) &&& 255, n &&& 255]

/-- SHA-1 message padding: `0x80`, zeros to 56 mod 64, then the bit length. -/
def sha1Pad (msg : List Nat) : List Nat :=
  msg ++ 128 :: List.replicate ((119 - msg.length % 64) % 64) 0
      ++ lenBytesBE (w64 (8 * msg.length))

/-- Chunk splitting with explicit fuel. -/
def chunks64Aux : Nat → List Nat → List (List Nat)
  | 0, _ => []
  | fuel + 1, l => if l = [] then [] else l.take 64 :: chunks64Aux fuel (l.drop 64)

/-- Splits a (padded) byte list into 64-byte chunks. -/
def chunks64 (l : List Nat) : List (List Nat) :=
  chunks64Aux (l.length + 1) l

/-- Extends the (reversed) word schedule by `k` further words. -/
def extendWords (ws : List Nat) : Nat → List Nat
  | 0 => ws.reverse
  | k + 1 =>
    extendWords
      (rotl32 ((ws.getD 2 0) ^^^ (ws.getD 7 0) ^^^ (ws.getD 13 0) ^^^ (ws.getD 15 0)) 1 :: ws) k

/-- The SHA-1 round function for round `i`. -/
def sha1F (i b c d : Nat) : Nat :=
  if i < 20 then (b &&& c) ||| ((b ^^^ 4294967295) &&& d)
  else if i < 40 then b ^^^ c ^^^ d
  else if i < 60 then (b &&& c) ||| (b &&& d) ||| (c &&& d)
  else b ^^^ c ^^^ d

/-- The SHA-1 round constant for round `i`. -/
def sha1K (i : Nat) : Nat :=
  if i < 20 then 1518500249
  else if i < 40 then 1859775393
  else if i < 60 then 2400959708
  else 3395469782

/-- One SHA-1 round on the working state. -/
def sha1Round (st : Nat × Nat × Nat × Nat × Nat) (iw : Nat × Nat) :
    Nat × Nat × Nat × Nat × Nat :=
  let a := st.1; let b := st.2.1; let c := st.2.2.1; let d := st.2.2.2.1; let e := st.2.2.2.2
  let temp := w32 (rotl32 a 5 + sha1F iw.1 b c d + e + sha1K iw.1 + iw.2)
  (temp, a, rotl32 b 30, c, d)

/-- Processing one 64-byte chunk. -/
def sha1Chunk (h : Nat × Nat × Nat × Nat × Nat) (chunk : List Nat) :
    Nat × Nat × Nat × Nat × Nat :=
  let ws := extendWords (toWordsBE chunk).reverse 64
  let r := ws.enum.foldl sha1Round h
  (w32 (h.1 + r.1), w32 (h.2.1 + r.2.1), w32 (h.2.2.1 + r.2.2.1),
   w32 (h.2.2.2.1 + r.2.2.2.1), w32 (h.2.2.2.2 + r.2.2.2.2))

/-- The five 32-bit words of the SHA-1 digest of a byte list. -/
def sha1Digest (msg : List Nat) : Nat × Nat × Nat × Nat × Nat :=
  (chunks64 (sha1Pad msg)).foldl sha1Chunk
    (1732584193, 4023233417, 2562383102, 271733878, 3285377520)

/-- The eight hexadecimal characters of a 32-bit word, most significant
first. -/
def toHex8 (n : Nat) : List Char :=
  [hexDigitChar ((n >>> 28) &&& 15), hexDigitChar ((n >>> 24) &&& 15),
   hexDigitChar ((n >>> 20) &&& 15), hexDigitChar ((n >>> 16) &&& 15),
   hexDigitChar ((n >>> 12) &&& 15), hexDigitChar ((n >>> 8) &&& 15),
   hexDigitChar ((n >>> 4) &&& 15), hexDigitChar (n &&& 15)]

/-- Models `hashlib.sha1(bs).hexdigest()`: the 40 lowercase hexadecimal
characters of the SHA-1 digest. -/
def sha1Hex (msg : List Nat) : String :=
  let d := sha1Digest msg
  String.mk (toHex8 d.1 ++ toHex8 d.2.1 ++ toHex8 d.2.2.1 ++ toHex8 d.2.2.2.1 ++ toHex8 d.2.2.2.2)

/-- Stable insertion of `a` into `l`, placing `a` after every element
already ≤-related to it (the insertion step of a stable sort). -/
def pyInsert (le : α → α → Bool) (a : α) : List α → List α
  | [] => [a]
  | b :: l => if le b a then b :: pyInsert le a l else a :: b :: l

/-- Models Python `list.sort(key=...)` / `sorted(...)`: a stable sort by
the given ≤-test. -/
def pySort (le : α → α → Bool) (l : List α) : List α :=
  l.foldl (fun acc a => pyInsert le a acc) []

/-! ## Data model: repository state, index entries, errors -/

/-- One staged file in the index (class `IndexEntry` of the source; the
`size` captured from `stat` is the file's byte length). -/
structure IndexEntry where
  path : String
  hash : String
  mode : Nat
  size : Nat
  mtime : Nat
deriving DecidableEq, Repr

/-- A regular file of the working tree, with the `stat` metadata `add`
captures. -/
structure FileRec where
  content : List Nat
  mode : Nat
  mtime : Nat
deriving DecidableEq, Repr

/-- The exception taxonomy of `common/exceptions.py` as used by the git
core, plus the builtin Python exceptions the core can leak
(`FileNotFoundError` from reading a missing `HEAD`, `ValueError` from
`bytes.fromhex`). `ValidationError` and `SecurityError` are raised by the
shared validator and are not `GitError` subclasses. -/
inductive GitErr where
  | repositoryError (msg : String)
  | objectError (msg : String)
  | indexError (msg : String)
  | commitError (msg : String)
  | branchError (msg : String)
  | validationError (msg : String)
  | securityError (msg : String)
  | fileNotFoundError (msg : String)
  | valueError (msg : String)
deriving DecidableEq, Repr

/-- Whether the exception is a `GitError` subclass (those are re-raised
as-is by each method's `except` block; everything else is wrapped). -/
def GitErr.isGitError : GitErr → Bool
  | .repositoryError _ => true
  | .objectError _ => true
  | .indexError _ => true
  | .commitError _ => true
  | .branchError _ => true
  | _ => false

/-- The message carried by an exception (Python `str(e)`, up to the
formatting the logger adds). -/
def GitErr.message : GitErr → String
  | .repositoryError m => m
  | .objectError m => m
  | .indexError m => m
  | .commitError m => m
  | .branchError m => m
  | .validationError m => m
  | .securityError m => m
  | .fileNotFoundError m => m
  | .valueError m => m

/-- The on-disk state of one repository.

* `initialized`: whether `.mygit/` and its `objects/`, `refs/heads/`
  subdirectories exist (created only together, by `init`);
* `objects`: the files under `objects/`, keyed by the 40-character name
  (first two characters are the subdirectory), holding the compressed bytes;
* `indexFile`: the parsed JSON array in the `index` file, `none` when the
  file is absent (JSON serialization round-trips, so entries are stored
  parsed);
* `headFile`: the text of `HEAD`, `none` when absent;
* `refsHeads`: the files under `refs/heads/` (branch name to file text);
* `currentBranch`: the in-memory `self.current_branch` attribute (loaded
  from `HEAD` at construction, updated by `checkout`);
* `worktreeFiles`/`worktreeDirs`: the working tree, keyed by path relative
  to the repository root (paths in normal form, and a path never names both
  a file and a directory). -/
structure RepoState where
  initialized : Bool
  objects : List (String × List Nat)
  indexFile : Option (List IndexEntry)
  headFile : Option String
  refsHeads : List (String × String)
  currentBranch : String
  worktreeFiles : List (String × FileRec)
  worktreeDirs : List String
deriving DecidableEq, Repr

/-- Models `zlib.compress` as an identity coding: compression is a
bijective byte coding and only `decompress (compress x) = x` is relied on
by the program. -/
def zlibCompress (bs : List Nat) : List Nat := bs

/-- Models `zlib.decompress`, inverse of `zlibCompress`. -/
def zlibDecompress (bs : List Nat) : List Nat := bs

/-- The framed payload `"<type> <size>"` header string of `hash_object`. -/
def gitHeader (obj_type : String) (size : Nat) : String :=
  obj_type ++ " " ++ natToDecStr size

/-- The framed payload `"<type> <size>\0<content>"` that is hashed and
stored (variable `store` in `hash_object`). -/
def gitFrame (obj_type : String) (data : List Nat) : List Nat :=
  pyEncode (gitHeader obj_type data.length) ++ 0 :: data

/-- Writing the object file for key `sha1` if it is not already present
(lines 178-182 of the source: `if not obj_file.exists(): write`). -/
def storeObject (s : RepoState) (sha1 : String) (v : List Nat) : RepoState :=
  if (s.objects.lookup sha1).isSome then s
  else { s with objects := (sha1, v) :: s.objects }

/-- Writing `refs/heads/<name>` (branch-ref files are whole-file
overwrites). -/
def writeRef (s : RepoState) (name content : String) : RepoState :=
  { s with refsHeads := (name, content) :: s.refsHeads.filter (fun p => p.1 != name) }

/-! ## Object store -/

/-- `MyGit.hash_object`: validates the type, frames the payload, hashes it
with SHA-1 and stores the compressed frame content-addressed, skipping the
write when the object file already exists.  The `validate_string` length
failure and the `FileNotFoundError` from `mkdir` under a missing
`.mygit/objects` are not `GitError`s, so the method's `except` block wraps
them into `GitObjectError`. -/
def hash_object (s : RepoState) (data : List Nat) (obj_type : String) :
    Except GitErr String × RepoState :=
  if obj_type.length < 1 ∨ 20 < obj_type.length then
    (.error (.objectError ("Failed to hash object: obj_type length")), s)
  else if ¬ (obj_type = "blob" ∨ obj_type = "tree" ∨ obj_type = "commit" ∨ obj_type = "tag") then
    (.error (.objectError ("Invalid object type: " ++ obj_type)), s)
  else
    let store := gitFrame obj_type data
    let sha1 := sha1Hex store
    if s.initialized = false then
      (.error (.objectError ("Failed to hash object: no objects directory")), s)
    else
      (.ok sha1, storeObject s sha1 (zlibCompress store))

/-- `MyGit.read_object`: validates the hash, loads and decompresses the
object file, splits the frame at the first NUL, parses and cross-checks the
header.  Every failure surfaces as `GitObjectError` (raised directly, or
wrapped by the `except` block). -/
def read_object (s : RepoState) (sha1 : String) : Except GitErr (String × List Nat) :=
  if sha1.length ≠ 40 then
    (.error (.objectError ("Failed to read object: sha1 length")))
  else if ¬ ((pyLower sha1).data.all (fun c => hexChars.contains c)) then
    (.error (.objectError ("Invalid SHA1 format: " ++ sha1)))
  else
    match s.objects.lookup sha1 with
    | none => .error (.objectError ("Object " ++ sha1 ++ " not found"))
    | some compressed =>
      let data := zlibDecompress compressed
      match List.findIdx? (fun b => b = 0) data with
      | none => .error (.objectError ("Invalid object format for " ++ sha1))
      | some nullIdx =>
        let content := data.drop (nullIdx + 1)
        match asciiDecode? (data.take nullIdx) with
        | none => .error (.objectError ("Failed to read object: header decode"))
        | some header =>
          match splitOnChar ' ' header.data with
          | [t, szChars] =>
            match pyParseNat? szChars with
            | none => .error (.objectError ("Invalid object header for " ++ sha1))
            | some size =>
              if content.length ≠ size then
                .error (.objectError ("Object size mismatch for " ++ sha1))
              else .ok (String.mk t, content)
          | _ => .error (.objectError ("Invalid object header for " ++ sha1))

/-! ## Index -/

/-- `MyGit.read_index`: the empty list when the `index` file is absent,
otherwise its parsed entries. -/
def read_index (s : RepoState) : List IndexEntry :=
  s.indexFile.getD []

/-- `MyGit.write_index`: serializes the full entry list over the `index`
file; raises `FileNotFoundError` when the control directory is absent. -/
def write_index (s : RepoState) (entries : List IndexEntry) : Except GitErr RepoState :=
  if s.initialized then .ok { s with indexFile := some entries }
  else .error (.fileNotFoundError "index")

/-- The case-insensitive path-traversal patterns of
`validator.validate_path`. -/
def pathTraversal (p : String) : Bool :=
  let lp := (pyLower p).data
  containsSub "../".data lp || containsSub "..\\".data lp ||
  containsSub "%2e%2e%2f".data lp || containsSub "%2e%2e%5c".data lp

/-- POSIX absolute path test (`Path.is_absolute`). -/
def isAbsolutePath (p : String) : Bool := pyStartsWith p "/"

/-- The wrapping performed by `add`'s `except` block: `GitError` subclasses
are re-raised, anything else becomes `GitIndexError`. -/
def wrapIndexErr (e : GitErr) : GitErr :=
  if e.isGitError then e else .indexError "Failed to add file"

/-- `MyGit.add`: validates the path (length, traversal, relative),
requires an existing non-directory file, stores its blob, replaces any
index entry for the same path, re-sorts by path string and persists the
index (the source writes the index a second time after the `try` block;
that write is identical).  The absolute-path `relative_to` branch of the
source is unreachable because `validate_path` already rejected absolute
paths. -/
def add (s : RepoState) (file_path : String) : Except GitErr Unit × RepoState :=
  if file_path.length < 1 ∨ 4096 < file_path.length then
    (.error (.indexError "Failed to add file: file_path length"), s)
  else if pathTraversal file_path then
    (.error (.indexError "Failed to add file: path traversal"), s)
  else if isAbsolutePath file_path then
    (.error (.indexError "Failed to add file: must be a relative path"), s)
  else
    match s.worktreeFiles.lookup file_path with
    | none =>
      if s.worktreeDirs.contains file_path then
        (.error (.indexError ("Cannot add directory " ++ file_path ++ " (use individual files)")), s)
      else
        (.error (.indexError ("File " ++ file_path ++ " not found")), s)
    | some f =>
      match hash_object s f.content "blob" with
      | (.error e, s1) => (.error (wrapIndexErr e), s1)
      | (.ok hash_val, s1) =>
        let entry : IndexEntry :=
          { path := file_path, hash := hash_val, mode := f.mode,
            size := f.content.length, mtime := f.mtime }
        let entries :=
          pySort (fun a b => decide (a.path ≤ b.path))
            ((read_index s1).filter (fun e => e.path != entry.path) ++ [entry])
        match write_index s1 entries with
        | .error e => (.error (wrapIndexErr e), s1)
        | .ok s2 =>
          match write_index s2 entries with
          | .error e => (.error (wrapIndexErr e), s2)
          | .ok s3 => (.ok (), s3)

/-! ## Tree builder -/

/-- The base name of a path (`Path.name`): the part after the last slash
(paths are assumed in normal form, without a trailing slash). -/
def pathName (p : String) : String :=
  String.mk ((splitOnChar '/' p.data).getLastD [])

/-- One tree-entry record `"<mode> <name>\0" + hash_bytes`; `none` when
`bytes.fromhex` fails on the entry's stored hash. -/
def tree_entry_bytes? (e : IndexEntry) : Option (List Nat) :=
  match bytesFromHex? e.hash with
  | none => none
  | some hb => some (pyEncode (octStr e.mode ++ " " ++ pathName e.path) ++ 0 :: hb)

/-- All tree-entry records of an entry list, `none` as soon as one fails
(the source loop raises `ValueError` at the first bad hash, before any
write happens). -/
def treeRecords? : List IndexEntry → Option (List (List Nat))
  | [] => some []
  | e :: es =>
    match tree_entry_bytes? e, treeRecords? es with
    | some r, some rs => some (r :: rs)
    | _, _ => none

/-- `MyGit.create_tree`: concatenates the tree-entry records of the given
index entries and stores the result as a `tree` object. -/
def create_tree (s : RepoState) (entries : List IndexEntry) :
    Except GitErr String × RepoState :=
  match treeRecords? entries with
  | none => (.error (.valueError "non-hexadecimal number found in fromhex() arg"), s)
  | some recs => hash_object s recs.flatten "tree"

/-! ## Commit graph -/

/-- `MyGit.get_current_branch`: reads `HEAD` (raising `FileNotFoundError`
when it is absent — this method has no `try` block), strips it, and removes
the `ref: refs/heads/` prefix; any other content means detached `HEAD` and
yields the default `"main"`. -/
def get_current_branch (s : RepoState) : Except GitErr String :=
  match s.headFile with
  | none => .error (.fileNotFoundError "HEAD")
  | some txt =>
    let head := pyStrip txt
    if pyStartsWith head "ref: refs/heads/" then .ok (pyDrop head 16)
    else .ok "main"

/-- `MyGit.get_current_commit`: the stripped content of the current
branch's ref file, or `none` when that file does not exist. -/
def get_current_commit (s : RepoState) : Except GitErr (Option String) :=
  match get_current_branch s with
  | .error e => .error e
  | .ok current_branch =>
    match s.refsHeads.lookup current_branch with
    | some c => .ok (some (pyStrip c))
    | none => .ok none

/-- The text of a commit object (`commit_content` in `MyGit.commit`);
`timestamp` is the wall-clock `int(datetime.now().timestamp())`, passed
explicitly here. -/
def commitContent (tree_hash : String) (parent : Option String)
    (author : String) (timestamp : Nat) (message : String) : String :=
  "tree " ++ tree_hash ++ "\n" ++
  (match parent with | some p => "parent " ++ p ++ "\n" | none => "") ++
  "author " ++ author ++ " <" ++ author ++ "@example.com> " ++
    natToDecStr timestamp ++ " +0000\n" ++
  "committer " ++ author ++ " <" ++ author ++ "@example.com> " ++
    natToDecStr timestamp ++ " +0000\n" ++
  "\n" ++ message ++ "\n"

/-- `MyGit.commit`: returns the `None` sentinel on an empty index (no state
change), otherwise builds the tree, reads the parent from the current
branch, stores the commit object and advances the current branch's ref.
The method has no `try` block, so errors of the steps propagate raw. -/
def commit (s : RepoState) (message author : String) (timestamp : Nat) :
    Except GitErr (Option String) × RepoState :=
  let entries := read_index s
  if entries.isEmpty then (.ok none, s)
  else
    match create_tree s entries with
    | (.error e, s1) => (.error e, s1)
    | (.ok tree_hash, s1) =>
      match get_current_commit s1 with
      | .error e => (.error e, s1)
      | .ok parent =>
        match hash_object s1
            (pyEncode (commitContent tree_hash parent author timestamp message)) "commit" with
        | (.error e, s2) => (.error e, s2)
        | (.ok commit_hash, s2) =>
          match get_current_branch s2 with
          | .error e => (.error e, s2)
          | .ok current_branch => (.ok (some commit_hash), writeRef s2 current_branch commit_hash)

/-! ## Branch / merge manager -/

/-- Models `str.isalnum()` on the character sets branch names use
(letters and digits). -/
def isAlnumChar (c : Char) : Bool := c.isAlpha || c.isDigit

/-- The branch-name charset check of `MyGit.branch`:
`name.replace('-', '').replace('_', '').replace('/', '').isalnum()`. -/
def branchCharsetOk (name : String) : Bool :=
  let stripped := name.data.filter (fun c => c != '-' && c != '_' && c != '/')
  !stripped.isEmpty && stripped.all isAlnumChar

/-- The wrapping performed by the branch-manager methods' `except` blocks:
`GitError` subclasses are re-raised, anything else becomes
`GitBranchError`. -/
def wrapBranchErr (e : GitErr) : GitErr :=
  if e.isGitError then e else .branchError "Branch operation failed"

/-- `MyGit.branch`: validates the name, refuses an existing ref, resolves
the starting commit (a validated `start_point`, or the current commit,
failing when there is none) and writes the new ref file. -/
def branch (s : RepoState) (branch_name : String) (start_point : Option String) :
    Except GitErr Bool × RepoState :=
  if branch_name.length < 1 ∨ 255 < branch_name.length then
    (.error (.branchError "Failed to create branch: branch_name length"), s)
  else if ¬ branchCharsetOk branch_name then
    (.error (.branchError ("Invalid branch name: " ++ branch_name)), s)
  else if (s.refsHeads.lookup branch_name).isSome then
    (.error (.branchError ("Branch '" ++ branch_name ++ "' already exists")), s)
  else
    match start_point with
    | some sp =>
      if sp.length < 1 ∨ 40 < sp.length then
        (.error (.branchError "Failed to create branch: start_point length"), s)
      else
        match read_object s sp with
        | .error _ => (.error (.branchError ("Invalid start point: " ++ sp)), s)
        | .ok _ => (.ok true, writeRef s branch_name sp)
    | none =>
      match get_current_commit s with
      | .error e => (.error (wrapBranchErr e), s)
      | .ok none => (.error (.branchError "Cannot create branch: no commits yet"), s)
      | .ok (some commit_hash) => (.ok true, writeRef s branch_name commit_hash)

/-- `MyGit.checkout`: creates the branch first when `create` is set and the
ref is absent, then rewrites `HEAD` to the attached ref and updates the
in-memory `current_branch` (the working tree is never rewritten; a
non-empty index only produces a warning).  The `HEAD` write cannot fail on
the paths that reach it, since the ref's existence implies the control
directory exists. -/
def checkout (s : RepoState) (branch_name : String) (create : Bool) :
    Except GitErr Bool × RepoState :=
  if branch_name.length < 1 ∨ 255 < branch_name.length then
    (.error (.branchError "Failed to checkout branch: branch_name length"), s)
  else
    match
      (if (s.refsHeads.lookup branch_name).isSome then (.ok true, s)
       else if create then branch s branch_name none
       else (.error (.branchError ("Branch '" ++ branch_name ++ "' does not exist")), s)) with
    | (.error e, s1) => (.error (wrapBranchErr e), s1)
    | (.ok _, s1) =>
      if s1.initialized = false then
        (.error (.branchError "Failed to checkout branch: no control directory"), s1)
      else
        (.ok true,
         { s1 with headFile := some ("ref: refs/heads/" ++ branch_name ++ "
"),
                   currentBranch := branch_name })

/-- `MyGit.list_branches`: the sorted file names under `refs/heads/`, the
empty list when that directory does not exist (and on any error). -/
def list_branches (s : RepoState) : List String :=
  if s.initialized = false then []
  else pySort (fun a b => decide (a ≤ b)) (s.refsHeads.map Prod.fst)

/-- `MyGit._can_fast_forward`: no current commit always fast-forwards;
otherwise the simplified check only requires the two hashes to differ. -/
def can_fast_forward (current_commit : Option String) (target_commit : String) : Bool :=
  match current_commit with
  | none => true
  | some c => c != target_commit

/-- `MyGit.merge`: requires the target ref to exist; equal commit hashes
are a no-op success; otherwise a fast-forward simply overwrites the ref of
`self.current_branch` (the in-memory attribute) with the target's commit
hash; when the simplified check fails a `GitBranchError` about unsupported
complex merges is raised. -/
def merge (s : RepoState) (branch_name : String) : Except GitErr Bool × RepoState :=
  if branch_name.length < 1 ∨ 255 < branch_name.length then
    (.error (.branchError "Failed to merge branch: branch_name length"), s)
  else
    match s.refsHeads.lookup branch_name with
    | none => (.error (.branchError ("Branch '" ++ branch_name ++ "' does not exist")), s)
    | some refContent =>
      match get_current_commit s with
      | .error e => (.error (wrapBranchErr e), s)
      | .ok current_commit =>
        let merge_commit := pyStrip refContent
        if current_commit = some merge_commit then (.ok true, s)
        else if can_fast_forward current_commit merge_commit then
          (.ok true, writeRef s s.currentBranch merge_commit)
        else
          (.error (.branchError "Cannot fast-forward merge. Complex merge not yet supported."), s)

/-! ## Status, log, diff (reporting commands) -/

/-- `MyGit.status`: the printed lines (without blank separators).  Reading
the current branch or commit can raise, and `status` has no `try` block. -/
def status (s : RepoState) : Except GitErr (List String) :=
  match get_current_branch s with
  | .error e => .error e
  | .ok br =>
    match get_current_commit s with
    | .error e => .error e
    | .ok cc =>
      let commitLine := match cc with
        | some c => "Current commit: " ++ pyTake c 8
        | none => "No commits yet"
      let entries := read_index s
      .ok (("On branch " ++ br) :: commitLine ::
        (if entries.isEmpty then ["No staged files"]
         else "Staged files:" :: entries.map (fun e => "  " ++ e.path)))

/-- The field-parsing loop of `MyGit.log` over the lines of a commit
object: collects `parent`, `author`, and the message lines after the first
empty line (the `tree` line is parsed but unused in the output). -/
def logParse : List String → Option String → Option String → List String → Bool →
    Option String × Option String × List String
  | [], parent, author, msg, _ => (parent, author, msg)
  | line :: rest, parent, author, msg, inMsg =>
    if pyStartsWith line "tree " then logParse rest parent author msg inMsg
    else if pyStartsWith line "parent " then logParse rest (some (pyDrop line 7)) author msg inMsg
    else if pyStartsWith line "author " then logParse rest parent (some (pyDrop line 7)) msg inMsg
    else if line = "" then logParse rest parent author msg true
    else if inMsg then logParse rest parent author (msg ++ [line]) inMsg
    else logParse rest parent author msg inMsg

/-- The history loop of `MyGit.log`, bounded by the remaining commit count.
Only `ValueError` (in Python, that includes `UnicodeDecodeError`) is caught
to stop the loop; `GitObjectError` from `read_object` propagates. -/
def logLoop (s : RepoState) : Option String → Nat → Except GitErr (List String)
  | _, 0 => .ok []
  | none, _ => .ok []
  | some cur, k + 1 =>
    if cur.isEmpty then .ok []
    else
      match read_object s cur with
      | .error e => .error e
      | .ok (t, data) =>
        if t != "commit" then .ok []
        else
          match asciiDecode? data with
          | none => .ok []
          | some txt =>
            let parsed := logParse ((splitOnChar '\n' txt.data).map String.mk) none none [] false
            let entry := ("commit " ++ cur) ::
              (match parsed.2.1 with | some a => ["Author: " ++ a] | none => []) ++
              (match parsed.2.2 with | m :: _ => ["Message: " ++ m] | [] => [])
            match logLoop s parsed.1 k with
            | .error e => .error e
            | .ok rest => .ok (entry ++ rest)

/-- `MyGit.log`: the printed history lines, following `parent` links from
the current commit for at most `max_commits` entries. -/
def log (s : RepoState) (max_commits : Nat) : Except GitErr (List String) :=
  match get_current_commit s with
  | .error e => .error e
  | .ok cur => logLoop s cur max_commits

/-- `MyGit.diff`: always returns a string; its `except` block catches every
exception and turns it into an `"Error showing diff: ..."` message. -/
def diff (s : RepoState) (commit1 commit2 : Option String) : String :=
  match (match commit1 with | some c => Except.ok (some c) | none => get_current_commit s) with
  | .error e => "Error showing diff: " ++ e.message
  | .ok none => "No commits to compare"
  | .ok (some c1) =>
    match commit2 with
    | none => "Diff functionality simplified - showing commit " ++ pyTake c1 8
    | some c2 =>
      match read_object s c1, read_object s c2 with
      | .ok _, .ok _ =>
        "Diff between " ++ pyTake c1 8 ++ " and " ++ pyTake c2 8 ++ " (simplified implementation)"
      | _, _ => "Error showing diff: One or both commits do not exist"

/-! ## Concrete states for witnesses -/

/-- A freshly initialized repository (the state `init` produces) with one
working-tree file `a.txt` containing the bytes of `"hi\n"` and one
directory. -/
def exampleState : RepoState :=
  { initialized := true, objects := [], indexFile := some [],
    headFile := some "ref: refs/heads/main\n", refsHeads := [], currentBranch := "main",
    worktreeFiles := [("a.txt", { content := [104, 105, 10], mode := 33188, mtime := 7 })],
    worktreeDirs := ["dir1"] }

/-- A repository whose control directory `.mygit` is absent: no object
store, no index file, no `HEAD`, no refs. -/
def uninitState : RepoState :=
  { initialized := false, objects := [], indexFile := none,
    headFile := none, refsHeads := [], currentBranch := "main",
    worktreeFiles := [("f.txt", { content := [104], mode := 33188, mtime := 0 })],
    worktreeDirs := [] }

/-- An initialized repository whose `HEAD` file is missing (deleted out of
band); used to separate "HEAD unreadable" from "HEAD not an attached
ref". -/
def headlessState : RepoState :=
  { initialized := true, objects := [], indexFile := some [],
    headFile := none, refsHeads := [], currentBranch := "main",
    worktreeFiles := [], worktreeDirs := [] }

/-- A repository with two branches pointing at distinct commit hashes and
`HEAD` attached to `main`. -/
def twoBranchState : RepoState :=
  { initialized := true, objects := [], indexFile := some [],
    headFile := some "ref: refs/heads/main\n",
    refsHeads := [("feature", "aaaa"), ("main", "bbbb")], currentBranch := "main",
    worktreeFiles := [], worktreeDirs := [] }

/-- The four recognized object kinds. -/
def kindOk (t : String) : Prop :=
  t = "blob" ∨ t = "tree" ∨ t = "commit" ∨ t = "tag"

/-! # Proofs

## Character and string layer -/

theorem string_mk_data (s : String) : String.mk s.data = s := rfl

theorem string_length_mk (l : List Char) : (String.mk l).length = l.length := rfl

theorem utf8EncodeChar_ascii {c : Char} (h : c.toNat < 128) :
    utf8EncodeChar c = [c.toNat] := by
  unfold utf8EncodeChar
  simp [h]

theorem pyEncode_ascii {l : List Char} (h : ∀ c ∈ l, c.toNat < 128) :
    l.flatMap utf8EncodeChar = l.map Char.toNat := by
  induction l with
  | nil => rfl
  | cons a as ih =>
    simp only [List.flatMap_cons, List.map_cons]
    rw [utf8EncodeChar_ascii (h a (List.mem_cons_self a as)), ih fun c hc => h c (List.mem_cons_of_mem a hc)]
    rfl

theorem asciiDecode?_map {l : List Char} (h : ∀ c ∈ l, c.toNat < 128) :
    asciiDecode? (l.map Char.toNat) = some (String.mk l) := by
  unfold asciiDecode?
  rw [if_pos]
  · congr 1
    congr 1
    rw [List.map_map]
    exact List.map_congr_left (fun c hc => Char.ofNat_toNat c) |>.trans (List.map_id l)
  · simp only [List.all_eq_true]
    intro b hb
    obtain ⟨c, hc, rfl⟩ := List.mem_map.1 hb
    exact decide_eq_true (h c hc)

theorem hexDigitChar_mem (n : Nat) : hexDigitChar n ∈ hexChars := by
  unfold hexDigitChar
  split <;> decide

theorem hexChars_facts : ∀ c ∈ hexChars,
    pyCharLower c = c ∧ hexChars.contains c = true ∧ pyIsSpace c = false ∧
    c ≠ '\n' ∧ c ≠ ' ' ∧ c.toNat < 128 ∧ c.toNat ≠ 0 := by decide

theorem hexDigitChar_digit {m : Nat} (h : m < 10) :
    Char.isDigit (hexDigitChar m) = true ∧ (hexDigitChar m).toNat = 48 + m := by
  interval_cases m <;> exact ⟨rfl, rfl⟩

theorem natToDecCharsAux_irrel : ∀ f1 f2 n : Nat, n < f1 → n < f2 →
    natToDecCharsAux f1 n = natToDecCharsAux f2 n := by
  intro f1
  induction f1 with
  | zero => intro f2 n h1; omega
  | succ f1 ih =>
    intro f2 n h1 h2
    cases f2 with
    | zero => omega
    | succ f2 =>
      show (if n < 10 then _ else natToDecCharsAux f1 (n / 10) ++ _) =
        (if n < 10 then _ else natToDecCharsAux f2 (n / 10) ++ _)
      split
      · rfl
      · next h =>
        rw [ih f2 (n / 10) (by omega) (by omega)]

theorem natToDecChars_eq (n : Nat) :
    natToDecChars n =
      if n < 10 then [hexDigitChar n]
      else natToDecChars (n / 10) ++ [hexDigitChar (n % 10)] := by
  show (if n < 10 then _ else natToDecCharsAux n (n / 10) ++ _) = _
  split
  · rfl
  · next h =>
    rw [natToDecCharsAux_irrel n (n / 10 + 1) (n / 10) (by omega) (by omega)]
    rfl

theorem natToDecChars_ne_nil (n : Nat) : natToDecChars n ≠ [] := by
  rw [natToDecChars_eq]
  split
  · simp
  · simp

theorem natToDecChars_mem (n : Nat) : ∀ c ∈ natToDecChars n, Char.isDigit c = true := by
  induction n using Nat.strong_induction_on with
  | _ n ih =>
    rw [natToDecChars_eq]
    split
    · next h =>
      intro c hc
      simp only [List.mem_singleton] at hc
      subst hc
      exact (hexDigitChar_digit h).1
    · next h =>
      intro c hc
      rcases List.mem_append.1 hc with hc | hc
      · exact ih (n / 10) (Nat.div_lt_self (by omega) (by omega)) c hc
      · simp only [List.mem_singleton] at hc
        subst hc
        exact (hexDigitChar_digit (Nat.mod_lt n (by omega))).1

theorem natToDecChars_foldl (n : Nat) : ∀ a : Nat,
    (natToDecChars n).foldl (fun a c => 10 * a + (c.toNat - 48)) a =
      a * 10 ^ (natToDecChars n).length + n := by
  induction n using Nat.strong_induction_on with
  | _ n ih =>
    intro a
    rw [natToDecChars_eq]
    split
    · next h =>
      simp only [List.foldl_cons, List.foldl_nil, List.length_singleton]
      rw [(hexDigitChar_digit h).2]
      omega
    · next h =>
      rw [List.foldl_append, List.length_append, ih (n / 10) (Nat.div_lt_self (by omega) (by omega)) a]
      simp only [List.foldl_cons, List.foldl_nil, List.length_singleton]
      rw [(hexDigitChar_digit (Nat.mod_lt n (by omega))).2]
      have hpow : 10 ^ ((natToDecChars (n / 10)).length + 1) =
          10 ^ (natToDecChars (n / 10)).length * 10 := by
        rw [pow_succ]
      rw [hpow, ← Nat.mul_assoc]
      generalize a * 10 ^ (natToDecChars (n / 10)).length = q
      omega

theorem pyParseNat?_natToDecChars (n : Nat) :
    pyParseNat? (natToDecChars n) = some n := by
  unfold pyParseNat?
  rw [if_pos ⟨natToDecChars_ne_nil n, List.all_eq_true.2 fun c hc => natToDecChars_mem n c hc⟩]
  rw [natToDecChars_foldl n 0]
  simp

theorem splitOnChar_cons (sep c : Char) (cs : List Char) :
    splitOnChar sep (c :: cs) =
      match splitOnChar sep cs with
      | [] => [[]]
      | g :: gs => if c = sep then [] :: g :: gs else (c :: g) :: gs := rfl

theorem splitOnChar_ne_nil (sep : Char) (l : List Char) : splitOnChar sep l ≠ [] := by
  cases l with
  | nil => simp [splitOnChar]
  | cons c cs =>
    rw [splitOnChar_cons]
    rcases h : splitOnChar sep cs with _ | ⟨g, gs⟩
    · simp
    · by_cases hcs : c = sep <;> simp [hcs]

theorem splitOnChar_of_not_mem {sep : Char} {l : List Char} (h : sep ∉ l) :
    splitOnChar sep l = [l] := by
  induction l with
  | nil => rfl
  | cons c cs ih =>
    have hc : c ≠ sep := by rintro rfl; exact h (List.mem_cons_self c cs)
    rw [splitOnChar_cons, ih fun hm => h (List.mem_cons_of_mem c hm)]
    simp [hc]

theorem splitOnChar_append {sep : Char} {l : List Char} (r : List Char) (h : sep ∉ l) :
    splitOnChar sep (l ++ sep :: r) = l :: splitOnChar sep r := by
  induction l with
  | nil =>
    show splitOnChar sep (sep :: r) = [] :: splitOnChar sep r
    rw [splitOnChar_cons]
    rcases hr : splitOnChar sep r with _ | ⟨g, gs⟩
    · exact absurd hr (splitOnChar_ne_nil sep r)
    · simp
  | cons c cs ih =>
    have hc : c ≠ sep := by rintro rfl; exact h (List.mem_cons_self c cs)
    show splitOnChar sep (c :: (cs ++ sep :: r)) = (c :: cs) :: splitOnChar sep r
    rw [splitOnChar_cons, ih fun hm => h (List.mem_cons_of_mem c hm)]
    simp [hc]

theorem dropWhile_eq_self_of_none {p : Char → Bool} {l : List Char}
    (h : ∀ c ∈ l, p c = false) : l.dropWhile p = l := by
  cases l with
  | nil => rfl
  | cons c cs =>
    rw [List.dropWhile_cons, if_neg]
    simp [h c (List.mem_cons_self c cs)]

theorem pyStrip_eq_self {s : String} (h : ∀ c ∈ s.data, pyIsSpace c = false) :
    pyStrip s = s := by
  unfold pyStrip
  rw [dropWhile_eq_self_of_none h,
      dropWhile_eq_self_of_none (fun c hc => h c (List.mem_reverse.1 hc)),
      List.reverse_reverse]

theorem findIdx?_first_nul {p : Nat → Bool} {l : List Nat} {a : Nat} (r : List Nat)
    (hl : ∀ x ∈ l, p x = false) (ha : p a = true) :
    List.findIdx? p (l ++ a :: r) = some l.length := by
  have key : ∀ (l : List Nat) (i : Nat), (∀ x ∈ l, p x = false) →
      List.findIdx? p (l ++ a :: r) i = some (i + l.length) := by
    intro l
    induction l with
    | nil =>
      intro i _
      simp only [List.nil_append, List.findIdx?_cons, ha, if_pos, List.length_nil, Nat.add_zero]
    | cons x xs ih =>
      intro i hx
      simp only [List.cons_append, List.findIdx?_cons, hx x (List.mem_cons_self x xs),
        Bool.false_eq_true, if_false]
      rw [ih (i + 1) fun y hy => hx y (List.mem_cons_of_mem x hy), List.length_cons]
      congr 1
      omega
  exact (key l 0 hl).trans (by rw [Nat.zero_add])

/-! ## Digest and frame layer -/

theorem toHex8_mem (n : Nat) : ∀ c ∈ toHex8 n, c ∈ hexChars := by
  intro c hc
  simp only [toHex8, List.mem_cons, List.not_mem_nil, or_false] at hc
  rcases hc with rfl | rfl | rfl | rfl | rfl | rfl | rfl | rfl <;> exact hexDigitChar_mem _

theorem sha1Hex_length (m : List Nat) : (sha1Hex m).length = 40 := by
  unfold sha1Hex
  rw [string_length_mk]
  simp [toHex8]

theorem sha1Hex_mem (m : List Nat) : ∀ c ∈ (sha1Hex m).data, c ∈ hexChars := by
  unfold sha1Hex
  intro c hc
  simp only [List.mem_append] at hc
  rcases hc with ((((hc | hc) | hc) | hc) | hc) <;> exact toHex8_mem _ c hc

theorem pyLower_eq_self {s : String} (h : ∀ c ∈ s.data, pyCharLower c = c) :
    pyLower s = s := by
  unfold pyLower
  rw [List.map_congr_left h]
  simp

theorem pyStrip_sha1Hex (m : List Nat) : pyStrip (sha1Hex m) = sha1Hex m :=
  pyStrip_eq_self fun c hc => (hexChars_facts c (sha1Hex_mem m c hc)).2.2.1

theorem natToDecChars_mem_hex (n : Nat) : ∀ c ∈ natToDecChars n, c ∈ hexChars := by
  induction n using Nat.strong_induction_on with
  | _ n ih =>
    rw [natToDecChars_eq]
    split
    · intro c hc
      simp only [List.mem_singleton] at hc
      subst hc
      exact hexDigitChar_mem _
    · next h =>
      intro c hc
      rcases List.mem_append.1 hc with hc | hc
      · exact ih (n / 10) (Nat.div_lt_self (by omega) (by omega)) c hc
      · simp only [List.mem_singleton] at hc
        subst hc
        exact hexDigitChar_mem _

theorem kind_chars {t : String} (ht : kindOk t) :
    ∀ c ∈ t.data, c.toNat < 128 ∧ c.toNat ≠ 0 ∧ c ≠ ' ' := by
  rcases ht with rfl | rfl | rfl | rfl <;> decide

theorem gitHeader_data (t : String) (n : Nat) :
    (gitHeader t n).data = t.data ++ ' ' :: natToDecChars n := by
  unfold gitHeader natToDecStr
  rw [String.data_append, String.data_append]
  simp

theorem gitHeader_ascii {t : String} (n : Nat) (ht : kindOk t) :
    ∀ c ∈ (gitHeader t n).data, c.toNat < 128 := by
  rw [gitHeader_data]
  intro c hc
  rcases List.mem_append.1 hc with hc | hc
  · exact (kind_chars ht c hc).1
  · rcases List.mem_cons.1 hc with rfl | hc
    · decide
    · exact (hexChars_facts c (natToDecChars_mem_hex n c hc)).2.2.2.2.2.1

theorem gitHeader_no_nul {t : String} (n : Nat) (ht : kindOk t) :
    ∀ c ∈ (gitHeader t n).data, c.toNat ≠ 0 := by
  rw [gitHeader_data]
  intro c hc
  rcases List.mem_append.1 hc with hc | hc
  · exact (kind_chars ht c hc).2.1
  · rcases List.mem_cons.1 hc with rfl | hc
    · decide
    · exact (hexChars_facts c (natToDecChars_mem_hex n c hc)).2.2.2.2.2.2

theorem drop_succ_append (l : List Nat) (a : Nat) (r : List Nat) :
    (l ++ a :: r).drop (l.length + 1) = r := by
  induction l with
  | nil => rfl
  | cons x xs ih => simpa using ih

/-- The central object-store fact: reading back the stored frame of a
valid-kind object returns the original type and content. -/
theorem read_object_frame (s : RepoState) (t : String) (b : List Nat) (ht : kindOk t)
    (hlk : s.objects.lookup (sha1Hex (gitFrame t b)) = some (zlibCompress (gitFrame t b))) :
    read_object s (sha1Hex (gitFrame t b)) = .ok (t, b) := by
  have hlen : ¬ ((sha1Hex (gitFrame t b)).length ≠ 40) := by
    rw [sha1Hex_length]
    omega
  have hlower : pyLower (sha1Hex (gitFrame t b)) = sha1Hex (gitFrame t b) :=
    pyLower_eq_self fun c hc => (hexChars_facts c (sha1Hex_mem _ c hc)).1
  have hhex : ((pyLower (sha1Hex (gitFrame t b))).data.all fun c => hexChars.contains c) = true := by
    rw [hlower]
    exact List.all_eq_true.2 fun c hc => (hexChars_facts c (sha1Hex_mem _ c hc)).2.1
  unfold read_object
  rw [if_neg hlen, if_neg (by rw [hhex]; exact fun hf => hf rfl), hlk]
  show (match List.findIdx? (fun x => x = 0) (zlibDecompress (zlibCompress (gitFrame t b))) with
    | none => Except.error (GitErr.objectError ("Invalid object format for " ++ sha1Hex (gitFrame t b)))
    | some nullIdx => _) = _
  have hframe : zlibDecompress (zlibCompress (gitFrame t b)) =
      (gitHeader t b.length).data.map Char.toNat ++ 0 :: b := by
    show gitFrame t b = _
    unfold gitFrame pyEncode
    rw [pyEncode_ascii (gitHeader_ascii b.length ht)]
  rw [hframe]
  have hno0 : ∀ x ∈ (gitHeader t b.length).data.map Char.toNat, (fun y => decide (y = 0)) x = false := by
    intro x hx
    obtain ⟨c, hc, rfl⟩ := List.mem_map.1 hx
    exact decide_eq_false (gitHeader_no_nul b.length ht c hc)
  rw [findIdx?_first_nul b hno0 (by decide)]
  show (match asciiDecode? (((gitHeader t b.length).data.map Char.toNat ++ 0 :: b).take
      ((gitHeader t b.length).data.map Char.toNat).length) with
    | none => _ | some header => _) = _
  rw [List.take_left, drop_succ_append]
  rw [asciiDecode?_map (fun c hc => gitHeader_ascii b.length ht c hc)]
  show (match splitOnChar ' ' (String.mk (gitHeader t b.length).data).data with
    | [t, szChars] => _ | _ => _) = _
  have hsplit : splitOnChar ' ' (String.mk (gitHeader t b.length).data).data =
      [t.data, natToDecChars b.length] := by
    show splitOnChar ' ' (gitHeader t b.length).data = _
    rw [gitHeader_data, splitOnChar_append _ (fun hm => (kind_chars ht _ hm).2.2 rfl),
        splitOnChar_of_not_mem (fun hm => by
          have := (hexChars_facts _ (natToDecChars_mem_hex b.length _ hm)).2.2.2.2.1
          exact this rfl)]
  rw [hsplit]
  show (match pyParseNat? (natToDecChars b.length) with | none => _ | some size => _) = _
  rw [pyParseNat?_natToDecChars]
  show (if b.length ≠ b.length then _ else Except.ok (String.mk t.data, b)) = _
  rw [if_neg (fun hf => hf rfl), string_mk_data]

/-! ## Object-store operation lemmas -/

theorem hash_object_eq (s : RepoState) (b : List Nat) (t : String)
    (ht : kindOk t) (hinit : s.initialized = true) :
    hash_object s b t =
      (.ok (sha1Hex (gitFrame t b)),
       storeObject s (sha1Hex (gitFrame t b)) (zlibCompress (gitFrame t b))) := by
  have hlen : ¬ (t.length < 1 ∨ 20 < t.length) := by
    rcases ht with rfl | rfl | rfl | rfl <;> decide
  have ht2 : ¬¬(t = "blob" ∨ t = "tree" ∨ t = "commit" ∨ t = "tag") := not_not_intro ht
  unfold hash_object
  rw [if_neg hlen, if_neg ht2, if_neg (by rw [hinit]; decide)]

theorem hash_object_ok_inv {s : RepoState} {b : List Nat} {t hv : String} {s' : RepoState}
    (h : hash_object s b t = (.ok hv, s')) :
    kindOk t ∧ s.initialized = true ∧ hv = sha1Hex (gitFrame t b) ∧
      s' = storeObject s (sha1Hex (gitFrame t b)) (zlibCompress (gitFrame t b)) := by
  unfold hash_object at h
  split at h
  · simp at h
  · split at h
    · simp at h
    · split at h
      · simp at h
      · next h1 h2 h3 =>
        have ht : kindOk t := not_not.1 h2
        have hinit : s.initialized = true := by
          rcases hb : s.initialized
          · exact absurd hb h3
          · rfl
        injection h with h4 h5
        injection h4 with h4
        exact ⟨ht, hinit, h4.symm, h5.symm⟩

theorem lookup_storeObject {s : RepoState} {k : String} {v : List Nat}
    (hkey : s.objects.lookup k = none ∨ s.objects.lookup k = some v) :
    (storeObject s k v).objects.lookup k = some v := by
  unfold storeObject
  rcases hkey with hk | hk
  · rw [if_neg (by simp [hk])]
    simp [List.lookup]
  · rw [if_pos (by simp [hk])]
    exact hk

theorem lookup_storeObject_isSome (s : RepoState) (k : String) (v : List Nat) :
    ((storeObject s k v).objects.lookup k).isSome = true := by
  unfold storeObject
  cases hk : s.objects.lookup k with
  | none =>
    rw [if_neg (by simp [hk])]
    simp [List.lookup]
  | some w =>
    rw [if_pos (by simp [hk]), hk]
    rfl

theorem storeObject_of_isSome {s : RepoState} {k : String} (v : List Nat)
    (h : (s.objects.lookup k).isSome = true) : storeObject s k v = s := by
  unfold storeObject
  rw [if_pos h]

theorem lookup_storeObject_mono {s : RepoState} {k : String} (k' : String) (v : List Nat)
    (h : (s.objects.lookup k).isSome = true) :
    ((storeObject s k' v).objects.lookup k).isSome = true := by
  unfold storeObject
  split
  · exact h
  · show (List.lookup k ((k', v) :: s.objects)).isSome = true
    simp only [List.lookup]
    split
    · rfl
    · exact h

theorem storeObject_headFile (s : RepoState) (k : String) (v : List Nat) :
    (storeObject s k v).headFile = s.headFile := by
  unfold storeObject
  split <;> rfl

theorem storeObject_indexFile (s : RepoState) (k : String) (v : List Nat) :
    (storeObject s k v).indexFile = s.indexFile := by
  unfold storeObject
  split <;> rfl

theorem storeObject_refsHeads (s : RepoState) (k : String) (v : List Nat) :
    (storeObject s k v).refsHeads = s.refsHeads := by
  unfold storeObject
  split <;> rfl

theorem storeObject_initialized (s : RepoState) (k : String) (v : List Nat) :
    (storeObject s k v).initialized = s.initialized := by
  unfold storeObject
  split <;> rfl

theorem writeRef_lookup_self (s : RepoState) (n c : String) :
    (writeRef s n c).refsHeads.lookup n = some c := by
  unfold writeRef
  simp [List.lookup]

/-! ## Stable-sort lemmas -/

theorem pyInsert_perm (le : α → α → Bool) (a : α) (l : List α) :
    List.Perm (pyInsert le a l) (a :: l) := by
  induction l with
  | nil => exact List.Perm.refl _
  | cons b bs ih =>
    unfold pyInsert
    split
    · exact (ih.cons b).trans (List.Perm.swap a b bs)
    · exact List.Perm.refl _

theorem pySort_foldl_perm (le : α → α → Bool) :
    ∀ (l acc : List α),
      List.Perm (l.foldl (fun acc a => pyInsert le a acc) acc) (acc ++ l) := by
  intro l
  induction l with
  | nil => intro acc; simp
  | cons a as ih =>
    intro acc
    have h1 : (a :: as).foldl (fun acc a => pyInsert le a acc) acc =
        as.foldl (fun acc a => pyInsert le a acc) (pyInsert le a acc) := rfl
    rw [h1]
    exact ((ih (pyInsert le a acc)).trans
      ((pyInsert_perm le a acc).append_right as)).trans List.perm_middle.symm

theorem pySort_perm (le : α → α → Bool) (l : List α) :
    List.Perm (pySort le l) l := by
  simpa using pySort_foldl_perm le l []

theorem pyInsert_sorted {le : α → α → Bool}
    (htrans : ∀ a b c, le a b = true → le b c = true → le a c = true)
    (htotal : ∀ a b, le a b = true ∨ le b a = true)
    (a : α) {l : List α} (hl : List.Pairwise (fun x y => le x y = true) l) :
    List.Pairwise (fun x y => le x y = true) (pyInsert le a l) := by
  induction l with
  | nil => exact List.pairwise_singleton _ a
  | cons b bs ih =>
    rw [List.pairwise_cons] at hl
    unfold pyInsert
    split
    · next hba =>
      rw [List.pairwise_cons]
      refine ⟨?_, ih hl.2⟩
      intro x hx
      rcases List.mem_cons.1 (((pyInsert_perm le a bs).mem_iff).1 hx) with hx | hx
      · subst hx; exact hba
      · exact hl.1 x hx
    · next hba =>
      have hab : le a b = true := by
        rcases htotal a b with h | h
        · exact h
        · exact absurd h hba
      rw [List.pairwise_cons]
      refine ⟨?_, List.pairwise_cons.2 hl⟩
      intro x hx
      rcases List.mem_cons.1 hx with hx | hx
      · subst hx; exact hab
      · exact htrans a b x hab (hl.1 x hx)

theorem pySort_sorted {le : α → α → Bool}
    (htrans : ∀ a b c, le a b = true → le b c = true → le a c = true)
    (htotal : ∀ a b, le a b = true ∨ le b a = true) (l : List α) :
    List.Pairwise (fun x y => le x y = true) (pySort le l) := by
  have key : ∀ (l acc : List α), List.Pairwise (fun x y => le x y = true) acc →
      List.Pairwise (fun x y => le x y = true)
        (l.foldl (fun acc a => pyInsert le a acc) acc) := by
    intro l
    induction l with
    | nil => intro acc h; exact h
    | cons a as ih =>
      intro acc h
      exact ih (pyInsert le a acc) (pyInsert_sorted htrans htotal a h)
  exact key l [] List.Pairwise.nil

/-! ## Claim theorems: object store -/

/-- C1: for every byte sequence `b` and object type `t` in
{blob, tree, commit, tag}, after `h = hash_object(b, t)` succeeds,
`read_object(h)` returns exactly the pair `(t, b)` (stated for any prior
store that does not already hold a different frame at the new object's
content address, which SHA-1 content addressing presupposes). -/
theorem hash_then_read_round_trip (s : RepoState) (b : List Nat) (t h : String)
    (s' : RepoState)
    (hrun : hash_object s b t = (.ok h, s'))
    (hkey : s.objects.lookup (sha1Hex (gitFrame t b)) = none ∨
            s.objects.lookup (sha1Hex (gitFrame t b)) = some (zlibCompress (gitFrame t b))) :
    read_object s' h = .ok (t, b) := by
  obtain ⟨ht, hinit, rfl, rfl⟩ := hash_object_ok_inv hrun
  exact read_object_frame _ t b ht (lookup_storeObject hkey)

/-- Witness for C1: hashing the two bytes `"hi"` as a blob in a fresh
repository and reading the returned hash back yields `("blob", "hi")`. -/
theorem hash_then_read_round_trip_witness :
    read_object (hash_object exampleState [104, 105] "blob").2
      "32f95c0d1244a78b2be1bab8de17906fabb2c4a8" = .ok ("blob", [104, 105]) :=
  hash_then_read_round_trip exampleState [104, 105] "blob"
    "32f95c0d1244a78b2be1bab8de17906fabb2c4a8"
    (hash_object exampleState [104, 105] "blob").2 (by rfl) (Or.inl (by rfl))

/-- C2: `hash_object(b, t)` called twice returns the same 40-character hash
both times, and the second call performs no storage write at all: the state
after the second call is exactly the state after the first, and the second
call succeeds rather than failing on the duplicate. -/
theorem hash_object_idempotent (s : RepoState) (b : List Nat) (t : String)
    (ht : kindOk t) (hinit : s.initialized = true) :
    ∃ h s1, hash_object s b t = (.ok h, s1) ∧
      hash_object s1 b t = (.ok h, s1) ∧ h.length = 40 := by
  refine ⟨sha1Hex (gitFrame t b),
    storeObject s (sha1Hex (gitFrame t b)) (zlibCompress (gitFrame t b)),
    hash_object_eq s b t ht hinit, ?_, sha1Hex_length _⟩
  rw [hash_object_eq _ b t ht (by rw [storeObject_initialized]; exact hinit),
      storeObject_of_isSome _ (lookup_storeObject_isSome s _ _)]

/-- Witness for C2 at a concrete byte sequence and a fresh repository. -/
theorem hash_object_idempotent_witness :
    ∃ h s1, hash_object exampleState [1, 2, 3] "blob" = (.ok h, s1) ∧
      hash_object s1 [1, 2, 3] "blob" = (.ok h, s1) ∧ h.length = 40 :=
  hash_object_idempotent exampleState [1, 2, 3] "blob" (Or.inl rfl) rfl

/-! ## Claim theorems: commit -/

/-- C4: with an empty index, `commit` returns the `None` "nothing to
commit" sentinel and the repository state is exactly unchanged — no object
written, no ref touched, `HEAD` untouched. -/
theorem commit_empty_index_noop (s : RepoState) (message author : String)
    (timestamp : Nat) (h : read_index s = []) :
    commit s message author timestamp = (.ok none, s) := by
  unfold commit
  rw [h]
  rfl

/-- Witness for C4: a freshly initialized repository has an empty index and
`commit` is a no-op on it. -/
theorem commit_empty_index_noop_witness :
    commit exampleState "m" "a" 0 = (.ok none, exampleState) :=
  commit_empty_index_noop exampleState "m" "a" 0 rfl

/-! ## Claim theorems: add -/

/-- C8: for every path `p` that does not name an existing file under the
repository root (which includes every path naming a directory, since a
path never names both), `add(p)` raises `GitIndexError` and leaves the
whole repository state — index file and object store included — exactly as
it was.  Every validation failure of `add` (empty or overlong path,
traversal pattern, absolute path, missing file, directory) surfaces as
`GitIndexError` before any write. -/
theorem add_invalid_path (s : RepoState) (p : String)
    (hnofile : s.worktreeFiles.lookup p = none) :
    ∃ msg, add s p = (.error (.indexError msg), s) := by
  unfold add
  split
  · exact ⟨_, rfl⟩
  · split
    · exact ⟨_, rfl⟩
    · split
      · exact ⟨_, rfl⟩
      · simp only [hnofile]
        split
        · exact ⟨_, rfl⟩
        · exact ⟨_, rfl⟩

/-- Witness for C8: adding a nonexistent path fails with `GitIndexError`
and changes nothing. -/
theorem add_invalid_path_witness :
    ∃ msg, add exampleState "nope.txt" = (.error (.indexError msg), exampleState) :=
  add_invalid_path exampleState "nope.txt" rfl

/-- C5: after `add(p)` succeeds, the persisted index holds exactly one
entry for path `p` — carrying the blob hash of `p`'s current content and
the captured `stat` metadata — and the whole index is sorted by path
string. -/
theorem add_replaces_and_sorts (s : RepoState) (p : String) (s' : RepoState)
    (hrun : add s p = (.ok (), s')) :
    ∃ f entries2,
      s.worktreeFiles.lookup p = some f ∧
      s'.indexFile = some entries2 ∧
      entries2.filter (fun e => e.path == p) =
        [{ path := p, hash := sha1Hex (gitFrame "blob" f.content), mode := f.mode,
           size := f.content.length, mtime := f.mtime }] ∧
      List.Pairwise (fun a b : IndexEntry => a.path ≤ b.path) entries2 := by
  unfold add at hrun
  split at hrun
  · simp at hrun
  · split at hrun
    · simp at hrun
    · split at hrun
      · simp at hrun
      · split at hrun
        · next heqf =>
          split at hrun <;> simp at hrun
        · next f heqf =>
          split at hrun
          · simp at hrun
          · next hv s1 heqh =>
            obtain ⟨ht, hinit, rfl, rfl⟩ := hash_object_ok_inv heqh
            have hwinit : (storeObject s (sha1Hex (gitFrame "blob" f.content))
                (zlibCompress (gitFrame "blob" f.content))).initialized = true := by
              rw [storeObject_initialized]; exact hinit
            simp only [write_index, hwinit, if_true, Prod.mk.injEq, true_and] at hrun
            set entries2 := pySort (fun a b : IndexEntry => decide (a.path ≤ b.path))
              ((read_index (storeObject s (sha1Hex (gitFrame "blob" f.content))
                  (zlibCompress (gitFrame "blob" f.content)))).filter
                    (fun e => e.path != p) ++
                [{ path := p, hash := sha1Hex (gitFrame "blob" f.content), mode := f.mode,
                   size := f.content.length, mtime := f.mtime }]) with hent
            refine ⟨f, entries2, heqf, ?_, ?_, ?_⟩
            · rw [← hrun]
            · have hperm := (pySort_perm (fun a b : IndexEntry => decide (a.path ≤ b.path))
                ((read_index (storeObject s (sha1Hex (gitFrame "blob" f.content))
                    (zlibCompress (gitFrame "blob" f.content)))).filter
                      (fun e => e.path != p) ++
                  [{ path := p, hash := sha1Hex (gitFrame "blob" f.content), mode := f.mode,
                     size := f.content.length, mtime := f.mtime }])).filter
                (fun e => e.path == p)
              rw [← hent, List.filter_append, List.filter_filter] at hperm
              have h1 : (List.filter
                  (fun e : IndexEntry => e.path == p && (e.path != p))
                  (read_index (storeObject s (sha1Hex (gitFrame "blob" f.content))
                    (zlibCompress (gitFrame "blob" f.content))))) = [] := by
                apply List.filter_eq_nil_iff.2
                intro e he
                simp
              have h2 : (List.filter (fun e : IndexEntry => e.path == p)
                  [{ path := p, hash := sha1Hex (gitFrame "blob" f.content), mode := f.mode,
                     size := f.content.length, mtime := f.mtime }]) =
                  [{ path := p, hash := sha1Hex (gitFrame "blob" f.content), mode := f.mode,
                     size := f.content.length, mtime := f.mtime }] := by
                simp
              rw [h1, h2, List.nil_append] at hperm
              exact List.perm_singleton.1 hperm
            · have hs := @pySort_sorted IndexEntry
                (fun a b : IndexEntry => decide (a.path ≤ b.path))
                (fun a b c hab hbc => by
                  simp only [decide_eq_true_eq] at *
                  exact le_trans hab hbc)
                (fun a b => by
                  simp only [decide_eq_true_eq]
                  exact le_total a.path b.path)
                ((read_index (storeObject s (sha1Hex (gitFrame "blob" f.content))
                    (zlibCompress (gitFrame "blob" f.content)))).filter
                      (fun e => e.path != p) ++
                  [{ path := p, hash := sha1Hex (gitFrame "blob" f.content), mode := f.mode,
                     size := f.content.length, mtime := f.mtime }])
              rw [← hent] at hs
              exact hs.imp fun h => of_decide_eq_true h

/-- Witness for C5: adding `a.txt` to a fresh repository leaves exactly one
sorted index entry for it. -/
theorem add_replaces_and_sorts_witness :
    ∃ f entries2,
      exampleState.worktreeFiles.lookup "a.txt" = some f ∧
      (add exampleState "a.txt").2.indexFile = some entries2 ∧
      entries2.filter (fun e => e.path == "a.txt") =
        [{ path := "a.txt", hash := sha1Hex (gitFrame "blob" f.content), mode := f.mode,
           size := f.content.length, mtime := f.mtime }] ∧
      List.Pairwise (fun a b : IndexEntry => a.path ≤ b.path) entries2 :=
  add_replaces_and_sorts exampleState "a.txt" (add exampleState "a.txt").2 (by rfl)

/-! ## Claim theorems: HEAD parsing (C9) -/

/-- Counterexample for C9 as stated: on a repository whose `HEAD` file is
missing, `get_current_branch` does not return the default `"main"` — the
uncaught `FileNotFoundError` from `read_text` propagates instead. -/
theorem get_current_branch_missing_head_not_main :
    get_current_branch headlessState ≠ .ok "main" := by
  intro h
  rw [show get_current_branch headlessState = .error (.fileNotFoundError "HEAD") from rfl] at h
  exact Except.noConfusion h

/-- C9 (amended): `get_current_branch` strips the `ref: refs/heads/`
prefix when `HEAD` holds an attached ref and returns `"main"` when `HEAD`
exists but is not parseable as an attached ref; when `HEAD` is missing the
call fails with the file-not-found error instead of defaulting. -/
theorem get_current_branch_spec (s : RepoState) :
    (∀ txt, s.headFile = some txt →
      get_current_branch s =
        .ok (if pyStartsWith (pyStrip txt) "ref: refs/heads/" then pyDrop (pyStrip txt) 16
             else "main")) ∧
    (s.headFile = none → get_current_branch s = .error (.fileNotFoundError "HEAD")) := by
  constructor
  · intro txt h
    simp only [get_current_branch, h]
    split <;> rfl
  · intro h
    simp only [get_current_branch, h]

/-- Witness for C9 (amended), on an attached `HEAD` and on a missing
`HEAD`. -/
theorem get_current_branch_spec_witness :
    get_current_branch exampleState =
      .ok (if pyStartsWith (pyStrip "ref: refs/heads/main\n") "ref: refs/heads/" then
             pyDrop (pyStrip "ref: refs/heads/main\n") 16 else "main") ∧
    get_current_branch headlessState = .error (.fileNotFoundError "HEAD") :=
  ⟨(get_current_branch_spec exampleState).1 "ref: refs/heads/main\n" rfl,
   (get_current_branch_spec headlessState).2 rfl⟩

/-! ## Claim theorems: checkout with no commits (C10) -/

/-- C10: in an initialized repository whose current branch has no ref file
yet, `checkout(name, create := true)` for an absent branch name raises
`GitBranchError` (the delegated `branch()` finds no current commit), and
the state — `HEAD` included — is unchanged. -/
theorem checkout_create_without_commits (s : RepoState) (name br : String)
    (hbr : get_current_branch s = .ok br)
    (hnoref : s.refsHeads.lookup br = none)
    (hname : s.refsHeads.lookup name = none)
    (hlen1 : 1 ≤ name.length) (hlen2 : name.length ≤ 255) :
    ∃ msg, checkout s name true = (.error (.branchError msg), s) := by
  have hgcc : get_current_commit s = .ok none := by
    simp only [get_current_commit, hbr, hnoref]
  have hb : ∃ m, branch s name none = (.error (.branchError m), s) := by
    unfold branch
    rw [if_neg (by omega)]
    by_cases hcs : branchCharsetOk name = true
    · rw [if_neg (fun hf => hf hcs), if_neg (by simp [hname])]
      rw [hgcc]
      exact ⟨_, rfl⟩
    · rw [if_pos hcs]
      exact ⟨_, rfl⟩
  obtain ⟨m, hb⟩ := hb
  unfold checkout
  rw [if_neg (by omega)]
  rw [if_neg (by simp [hname]), if_pos rfl, hb]
  exact ⟨m, rfl⟩

/-- Witness for C10: creating-and-switching to `feature` on a fresh
repository with no commits fails with `GitBranchError` and leaves the
state alone. -/
theorem checkout_create_without_commits_witness :
    ∃ msg, checkout exampleState "feature" true =
      (.error (.branchError msg), exampleState) :=
  checkout_create_without_commits exampleState "feature" "main" (by rfl) rfl rfl
    (by decide) (by decide)

/-! ## Claim theorems: merge (C6) -/

/-- C6: for an existing branch `name` (its ref holding `refContent`), with
`HEAD` attached coherently with the in-memory current branch: if the
target's commit equals the current commit, `merge` is a no-op success
changing no state; otherwise it succeeds by overwriting the current
branch's ref with the target's commit hash — and the `GitBranchError`
about unsupported complex merges is raised exactly when the simplified
fast-forward check fails, which never happens (the check only requires the
two hashes to differ). -/
theorem merge_spec (s : RepoState) (name refContent br : String)
    (hlen1 : 1 ≤ name.length) (hlen2 : name.length ≤ 255)
    (href : s.refsHeads.lookup name = some refContent)
    (hcur : s.currentBranch = br)
    (cc : Option String) (hcc : get_current_commit s = .ok cc) :
    (cc = some (pyStrip refContent) → merge s name = (.ok true, s)) ∧
    (cc ≠ some (pyStrip refContent) →
       merge s name = (.ok true, writeRef s br (pyStrip refContent))) ∧
    ((merge s name).1 =
        .error (.branchError "Cannot fast-forward merge. Complex merge not yet supported.") ↔
      cc ≠ some (pyStrip refContent) ∧
        can_fast_forward cc (pyStrip refContent) = false) := by
  have hmerge : merge s name =
      (if cc = some (pyStrip refContent) then (.ok true, s)
       else (.ok true, writeRef s br (pyStrip refContent))) := by
    unfold merge
    rw [if_neg (by omega)]
    rw [href, hcc]
    show (if cc = some (pyStrip refContent) then _
          else if can_fast_forward cc (pyStrip refContent) = true then
            (Except.ok true, writeRef s s.currentBranch (pyStrip refContent))
          else _) = _
    split
    · rfl
    · next hne =>
      have hff : can_fast_forward cc (pyStrip refContent) = true := by
        cases cc with
        | none => rfl
        | some c =>
          show (c != pyStrip refContent) = true
          simp only [bne_iff_ne, ne_eq]
          intro hceq
          exact hne (by rw [hceq])
      rw [if_pos hff, hcur]
  refine ⟨fun h => by rw [hmerge, if_pos h], fun h => by rw [hmerge, if_neg h], ?_⟩
  constructor
  · intro habs
    rw [hmerge] at habs
    split at habs <;> simp at habs
  · rintro ⟨hne, hff⟩
    exfalso
    cases cc with
    | none => simp [can_fast_forward] at hff
    | some c =>
      have : (c != pyStrip refContent) = false := hff
      rw [bne_eq_false_iff_eq] at this
      exact hne (by rw [this])

/-- Witness for C6: merging `feature` (at `aaaa`) into `main` (at `bbbb`)
fast-forwards `main`'s ref to `aaaa`; the no-op and error clauses hold
vacuously there. -/
theorem merge_spec_witness :
    (some "bbbb" = some (pyStrip "aaaa") →
      merge twoBranchState "feature" = (.ok true, twoBranchState)) ∧
    (some "bbbb" ≠ some (pyStrip "aaaa") →
      merge twoBranchState "feature" =
        (.ok true, writeRef twoBranchState "main" (pyStrip "aaaa"))) ∧
    ((merge twoBranchState "feature").1 =
        .error (.branchError "Cannot fast-forward merge. Complex merge not yet supported.") ↔
      some "bbbb" ≠ some (pyStrip "aaaa") ∧
        can_fast_forward (some "bbbb") (pyStrip "aaaa") = false) :=
  merge_spec twoBranchState "feature" "aaaa" "main" (by decide) (by decide) rfl rfl
    (some "bbbb") (by rfl)

/-! ## Claim theorems: behaviour without the control directory (C7) -/

/-- Counterexample for C7 as stated: `commit` on a repository whose
`.mygit` directory is absent does not fail — `read_index` yields the empty
list for the missing index file, so `commit` completes normally with the
"nothing to commit" sentinel. -/
theorem commit_without_control_dir_completes :
    commit uninitState "msg" "author" 0 = (.ok none, uninitState) := rfl

theorem read_object_no_objects {s : RepoState} (h5 : s.objects = []) (sp : String) :
    ∃ e, read_object s sp = .error e := by
  unfold read_object
  split
  · exact ⟨_, rfl⟩
  · split
    · exact ⟨_, rfl⟩
    · have hlk : s.objects.lookup sp = none := by rw [h5]; rfl
      simp only [hlk]
      exact ⟨_, rfl⟩

theorem hash_object_uninit {s : RepoState} (h1 : s.initialized = false) (b : List Nat) :
    hash_object s b "blob" =
      (.error (.objectError "Failed to hash object: no objects directory"), s) := by
  unfold hash_object
  rw [if_neg (by decide), if_neg (by decide), if_pos h1]

theorem add_uninit {s : RepoState} (h1 : s.initialized = false) (p : String) :
    ∃ e, (add s p).1 = .error e := by
  unfold add
  split
  · exact ⟨_, rfl⟩
  · split
    · exact ⟨_, rfl⟩
    · split
      · exact ⟨_, rfl⟩
      · cases hf : s.worktreeFiles.lookup p with
        | none =>
          simp only [hf]
          split <;> exact ⟨_, rfl⟩
        | some f =>
          simp only [hf, hash_object_uninit h1 f.content]
          exact ⟨_, rfl⟩

theorem branch_uninit {s : RepoState} (h3 : s.headFile = none) (h4 : s.refsHeads = [])
    (h5 : s.objects = []) (nm : String) (sp : Option String) :
    ∃ e, branch s nm sp = (.error e, s) := by
  have hgcb : get_current_branch s = .error (.fileNotFoundError "HEAD") := by
    simp only [get_current_branch, h3]
  have hgcc : get_current_commit s = .error (.fileNotFoundError "HEAD") := by
    simp only [get_current_commit, hgcb]
  have hlk : s.refsHeads.lookup nm = none := by rw [h4]; rfl
  unfold branch
  split
  · exact ⟨_, rfl⟩
  · split
    · exact ⟨_, rfl⟩
    · rw [if_neg (by simp [hlk])]
      split
      · next spv =>
        by_cases hsl : spv.length < 1 ∨ 40 < spv.length
        · exact ⟨_, by rw [if_pos hsl]⟩
        · obtain ⟨e, he⟩ := read_object_no_objects h5 spv
          refine ⟨.branchError ("Invalid start point: " ++ spv), ?_⟩
          rw [if_neg hsl, he]
      · simp only [hgcc]
        exact ⟨_, rfl⟩

theorem checkout_uninit {s : RepoState} (h3 : s.headFile = none) (h4 : s.refsHeads = [])
    (h5 : s.objects = []) (nm : String) (cr : Bool) :
    ∃ e, (checkout s nm cr).1 = .error e := by
  have hlk : s.refsHeads.lookup nm = none := by rw [h4]; rfl
  unfold checkout
  split
  · exact ⟨_, rfl⟩
  · rw [if_neg (by simp [hlk])]
    cases cr with
    | true =>
      rw [if_pos rfl]
      obtain ⟨e, he⟩ := branch_uninit h3 h4 h5 nm none
      simp only [he]
      exact ⟨_, rfl⟩
    | false =>
      rw [if_neg (by decide)]
      exact ⟨_, rfl⟩

theorem merge_uninit {s : RepoState} (h4 : s.refsHeads = []) (nm : String) :
    ∃ e, (merge s nm).1 = .error e := by
  have hlk : s.refsHeads.lookup nm = none := by rw [h4]; rfl
  unfold merge
  split
  · exact ⟨_, rfl⟩
  · simp only [hlk]
    exact ⟨_, rfl⟩

/-- C7 (amended): when the control directory is absent, `add`, `status`,
`log`, `branch`, `checkout` and `merge` fail with an error; but `commit`
completes normally returning the "nothing to commit" sentinel,
`read_index` and `list_branches` return the empty list, and `diff`
returns an `"Error showing diff: ..."` string instead of raising. -/
theorem operations_uninitialized (s : RepoState)
    (h1 : s.initialized = false) (h2 : s.indexFile = none) (h3 : s.headFile = none)
    (h4 : s.refsHeads = []) (h5 : s.objects = [])
    (p m a nm : String) (sp : Option String) (ts mx : Nat) (cr : Bool) :
    (∃ e, (add s p).1 = .error e) ∧
    (∃ e, status s = .error e) ∧
    (∃ e, log s mx = .error e) ∧
    (∃ e, (branch s nm sp).1 = .error e) ∧
    (∃ e, (checkout s nm cr).1 = .error e) ∧
    (∃ e, (merge s nm).1 = .error e) ∧
    commit s m a ts = (.ok none, s) ∧
    read_index s = [] ∧
    list_branches s = [] ∧
    (∃ msg, diff s none none = "Error showing diff: " ++ msg) := by
  have hgcb : get_current_branch s = .error (.fileNotFoundError "HEAD") := by
    simp only [get_current_branch, h3]
  have hgcc : get_current_commit s = .error (.fileNotFoundError "HEAD") := by
    simp only [get_current_commit, hgcb]
  refine ⟨add_uninit h1 p, ⟨.fileNotFoundError "HEAD", by simp only [status, hgcb]⟩,
    ⟨.fileNotFoundError "HEAD", by simp only [log, hgcc]⟩, ?_,
    checkout_uninit h3 h4 h5 nm cr, merge_uninit h4 nm, ?_, ?_, ?_, ?_⟩
  · obtain ⟨e, he⟩ := branch_uninit h3 h4 h5 nm sp
    exact ⟨e, by simp [he]⟩
  · exact commit_empty_index_noop s m a ts (by simp [read_index, h2])
  · simp [read_index, h2]
  · unfold list_branches
    rw [if_pos h1]
  · refine ⟨(GitErr.fileNotFoundError "HEAD").message, ?_⟩
    simp only [diff, hgcc]

/-- Witness for C7 (amended), on the concrete uninitialized repository. -/
theorem operations_uninitialized_witness :
    (∃ e, (add uninitState "f.txt").1 = .error e) ∧
    (∃ e, status uninitState = .error e) ∧
    (∃ e, log uninitState 10 = .error e) ∧
    (∃ e, (branch uninitState "b1" none).1 = .error e) ∧
    (∃ e, (checkout uninitState "b1" true).1 = .error e) ∧
    (∃ e, (merge uninitState "b1").1 = .error e) ∧
    commit uninitState "m" "a" 0 = (.ok none, uninitState) ∧
    read_index uninitState = [] ∧
    list_branches uninitState = [] ∧
    (∃ msg, diff uninitState none none = "Error showing diff: " ++ msg) :=
  operations_uninitialized uninitState rfl rfl rfl rfl rfl "f.txt" "m" "a" "b1" none 0 10 true

/-! ## Commit-chain lemmas (C3) -/

theorem writeRef_headFile (s : RepoState) (n c : String) :
    (writeRef s n c).headFile = s.headFile := rfl

theorem writeRef_indexFile (s : RepoState) (n c : String) :
    (writeRef s n c).indexFile = s.indexFile := rfl

theorem writeRef_objects (s : RepoState) (n c : String) :
    (writeRef s n c).objects = s.objects := rfl

theorem read_index_congr {s s' : RepoState} (h : s'.indexFile = s.indexFile) :
    read_index s' = read_index s := by
  unfold read_index
  rw [h]

theorem get_current_branch_congr {s s' : RepoState} (h : s'.headFile = s.headFile) :
    get_current_branch s' = get_current_branch s := by
  unfold get_current_branch
  rw [h]

theorem get_current_commit_eq {s : RepoState} {br : String}
    (hbr : get_current_branch s = .ok br) :
    get_current_commit s = .ok ((s.refsHeads.lookup br).map pyStrip) := by
  unfold get_current_commit
  rw [hbr]
  cases h : s.refsHeads.lookup br <;> simp [h]

theorem hash_object_state_fields {s : RepoState} {b : List Nat} {t : String}
    {r : Except GitErr String} {s' : RepoState} (h : hash_object s b t = (r, s')) :
    s'.headFile = s.headFile ∧ s'.indexFile = s.indexFile ∧
      s'.refsHeads = s.refsHeads ∧ s'.initialized = s.initialized ∧
      ∀ k, (s.objects.lookup k).isSome = true → (s'.objects.lookup k).isSome = true := by
  unfold hash_object at h
  split at h
  · injection h with _ h2
    subst h2
    exact ⟨rfl, rfl, rfl, rfl, fun k hk => hk⟩
  · split at h
    · injection h with _ h2
      subst h2
      exact ⟨rfl, rfl, rfl, rfl, fun k hk => hk⟩
    · split at h
      · injection h with _ h2
        subst h2
        exact ⟨rfl, rfl, rfl, rfl, fun k hk => hk⟩
      · injection h with _ h2
        subst h2
        exact ⟨storeObject_headFile .., storeObject_indexFile ..,
          storeObject_refsHeads .., storeObject_initialized ..,
          fun k hk => lookup_storeObject_mono _ _ hk⟩

theorem create_tree_fields {s : RepoState} {es : List IndexEntry}
    {r : Except GitErr String} {s' : RepoState} (h : create_tree s es = (r, s')) :
    s'.headFile = s.headFile ∧ s'.indexFile = s.indexFile ∧
      s'.refsHeads = s.refsHeads ∧ s'.initialized = s.initialized ∧
      ∀ k, (s.objects.lookup k).isSome = true → (s'.objects.lookup k).isSome = true := by
  unfold create_tree at h
  split at h
  · injection h with _ h2
    subst h2
    exact ⟨rfl, rfl, rfl, rfl, fun k hk => hk⟩
  · exact hash_object_state_fields h

theorem create_tree_ok_inv {s : RepoState} {es : List IndexEntry} {th : String}
    {s' : RepoState} (h : create_tree s es = (.ok th, s')) :
    ∃ recs, treeRecords? es = some recs ∧
      th = sha1Hex (gitFrame "tree" recs.flatten) ∧
      s' = storeObject s th (zlibCompress (gitFrame "tree" recs.flatten)) ∧
      s.initialized = true := by
  unfold create_tree at h
  split at h
  · simp at h
  · next recs hrecs =>
    obtain ⟨_, hinit, hth, hs⟩ := hash_object_ok_inv h
    subst hth
    exact ⟨recs, hrecs, rfl, hs, hinit⟩

theorem parent_line_mem (th p a m : String) (ts : Nat)
    (hth : ∀ c ∈ th.data, c ≠ '\n') (hp : ∀ c ∈ p.data, c ≠ '\n') :
    ("parent " ++ p) ∈
      (splitOnChar '\n' (commitContent th (some p) a ts m).data).map String.mk := by
  have hdata : (commitContent th (some p) a ts m).data =
      ("tree ".data ++ th.data) ++ '\n' ::
        (("parent ".data ++ p.data) ++ '\n' ::
          ("author " ++ a ++ " <" ++ a ++ "@example.com> " ++ natToDecStr ts ++ " +0000\n" ++
           "committer " ++ a ++ " <" ++ a ++ "@example.com> " ++ natToDecStr ts ++ " +0000\n" ++
           "\n" ++ m ++ "\n").data) := by
    unfold commitContent
    simp only [String.data_append, List.append_assoc]
    rfl
  rw [hdata]
  have hno1 : '\n' ∉ "tree ".data ++ th.data := by
    intro hm
    rcases List.mem_append.1 hm with hm | hm
    · revert hm
      decide
    · exact hth _ hm rfl
  have hno2 : '\n' ∉ "parent ".data ++ p.data := by
    intro hm
    rcases List.mem_append.1 hm with hm | hm
    · revert hm
      decide
    · exact hp _ hm rfl
  rw [splitOnChar_append _ hno1, splitOnChar_append _ hno2]
  simp only [List.map_cons, List.mem_cons]
  refine Or.inr (Or.inl ?_)
  rw [← String.data_append, string_mk_data]

/-! ## Claim theorem: commit chain integrity (C3) -/

/-- C3: starting from a repository with a non-empty index and an attached
current branch `br`, after `commit(m1)` succeeds returning `h1` and then
`commit(m2)` succeeds returning `h2` on the same branch, the commit object
stored under `h2` contains a `parent` line equal to `h1`, and `br`'s ref
file content equals `h2` (stated under the freshness of `h2` in the store
before the second commit, which SHA-1 content addressing presupposes). -/
theorem commit_chain (s : RepoState) (br m1 m2 a1 a2 : String) (t1 t2 : Nat)
    (h1 h2 : String) (s1 s2 : RepoState)
    (hbr : get_current_branch s = .ok br)
    (hrun1 : commit s m1 a1 t1 = (.ok (some h1), s1))
    (hrun2 : commit s1 m2 a2 t2 = (.ok (some h2), s2))
    (hfresh : s1.objects.lookup h2 = none) :
    (∃ content,
       s2.objects.lookup h2 = some (zlibCompress (gitFrame "commit" (pyEncode content))) ∧
       ("parent " ++ h1) ∈ (splitOnChar '\n' content.data).map String.mk) ∧
    s2.refsHeads.lookup br = some h2 := by
  -- invert the first commit
  unfold commit at hrun1
  simp only [] at hrun1
  split at hrun1
  · simp at hrun1
  · split at hrun1
    · simp at hrun1
    · next treeH1 sA heqct1 =>
      split at hrun1
      · simp at hrun1
      · next parent1 heqp1 =>
        split at hrun1
        · simp at hrun1
        · next ch1 sB heqh1 =>
          split at hrun1
          · simp at hrun1
          · next cb1 heqb1 =>
            obtain ⟨hA1, hA2, hA3, hA4, hA5⟩ := create_tree_fields heqct1
            obtain ⟨hB1, hB2, hB3, hB4, hB5⟩ := hash_object_state_fields heqh1
            obtain ⟨recs1, hrecs1, hth1, hsA, hinit⟩ := create_tree_ok_inv heqct1
            obtain ⟨_, _, hch1, hsB⟩ := hash_object_ok_inv heqh1
            have hcb1 : cb1 = br := by
              have := (get_current_branch_congr (hB1.trans hA1)).symm.trans heqb1
              rw [hbr] at this
              injection this with this
              exact this.symm
            injection hrun1 with hrun1a hrun1b
            injection hrun1a with hrun1a
            injection hrun1a with hrun1a
            rw [hcb1, hrun1a] at hrun1b
            rw [hrun1a] at hch1
            subst hrun1b
            -- facts about s1
            have hs1head : (writeRef sB br h1).headFile = s.headFile := by
              rw [writeRef_headFile, hB1, hA1]
            have hs1idx : (writeRef sB br h1).indexFile = s.indexFile := by
              rw [writeRef_indexFile, hB2, hA2]
            have hs1ref : (writeRef sB br h1).refsHeads.lookup br = some h1 :=
              writeRef_lookup_self sB br h1
            have hs1br : get_current_branch (writeRef sB br h1) = .ok br := by
              rw [get_current_branch_congr hs1head, hbr]
            have hstrip : pyStrip h1 = h1 := by
              rw [hch1]
              exact pyStrip_sha1Hex _
            have htree_mem : ((writeRef sB br h1).objects.lookup treeH1).isSome = true := by
              rw [writeRef_objects]
              refine hB5 treeH1 ?_
              rw [hsA, hth1]
              exact lookup_storeObject_isSome ..
            -- invert the second commit
            unfold commit at hrun2
            simp only [] at hrun2
            rw [read_index_congr hs1idx] at hrun2
            split at hrun2
            · simp at hrun2
            · split at hrun2
              · simp at hrun2
              · next treeH2 sC heqct2 =>
                obtain ⟨recs2, hrecs2, hth2, hsC, _⟩ := create_tree_ok_inv heqct2
                have hrecseq : recs2 = recs1 := by
                  rw [hrecs1] at hrecs2
                  injection hrecs2 with h
                  exact h.symm
                subst hrecseq
                have hth21 : treeH2 = treeH1 := by
                  rw [hth2, hth1]
                have hsCs1 : sC = writeRef sB br h1 := by
                  rw [hsC]
                  refine storeObject_of_isSome _ ?_
                  rw [hth21]
                  exact htree_mem
                split at hrun2
                · simp at hrun2
                · next parent2 heqp2 =>
                  have hp2 : parent2 = some h1 := by
                    rw [hsCs1, get_current_commit_eq hs1br, hs1ref] at heqp2
                    injection heqp2 with heqp2
                    rw [← heqp2]
                    simp [hstrip]
                  subst hp2
                  split at hrun2
                  · simp at hrun2
                  · next ch2 sD heqh2 =>
                    rw [hsCs1] at heqh2
                    obtain ⟨_, _, hch2, hsD⟩ := hash_object_ok_inv heqh2
                    split at hrun2
                    · simp at hrun2
                    · next cb2 heqb2 =>
                      obtain ⟨hD1, _, _, _, _⟩ := hash_object_state_fields heqh2
                      have hcb2 : cb2 = br := by
                        have := (get_current_branch_congr hD1).symm.trans heqb2
                        rw [hs1br] at this
                        injection this with this
                        exact this.symm
                      injection hrun2 with hrun2a hrun2b
                      injection hrun2a with hrun2a
                      injection hrun2a with hrun2a
                      rw [hcb2, hrun2a] at hrun2b
                      rw [hrun2a] at hch2
                      subst hrun2b
                      constructor
                      · refine ⟨commitContent treeH2 (some h1) a2 t2 m2, ?_, ?_⟩
                        · rw [writeRef_objects, hsD, hch2]
                          refine lookup_storeObject (Or.inl ?_)
                          rw [← hch2]
                          exact hfresh
                        · refine parent_line_mem treeH2 h1 a2 m2 t2 ?_ ?_
                          · intro c hc
                            rw [hth2] at hc
                            exact (hexChars_facts c (sha1Hex_mem _ c hc)).2.2.2.1
                          · intro c hc
                            rw [hch1] at hc
                            exact (hexChars_facts c (sha1Hex_mem _ c hc)).2.2.2.1
                      · exact writeRef_lookup_self ..

/-- Witness for C3: two consecutive commits on `main` in a concrete
repository; the second commit's object carries a `parent` line naming the
first commit, and `main`'s ref equals the second hash. -/
theorem commit_chain_witness :
    (∃ content,
       (commit (commit (add exampleState "a.txt").2 "first" "alice" 1000).2
           "second" "alice" 2000).2.objects.lookup
           "e70a05728a6a985b71882f9d4a569b7373cc8a8e" =
         some (zlibCompress (gitFrame "commit" (pyEncode content))) ∧
       ("parent " ++ "d5e6a8a80132d6e1dcbc961f0e8f399e65a61625") ∈
         (splitOnChar '\n' content.data).map String.mk) ∧
    (commit (commit (add exampleState "a.txt").2 "first" "alice" 1000).2
        "second" "alice" 2000).2.refsHeads.lookup "main" =
      some "e70a05728a6a985b71882f9d4a569b7373cc8a8e" :=
  commit_chain (add exampleState "a.txt").2 "main" "first" "second" "alice" "alice"
    1000 2000 "d5e6a8a80132d6e1dcbc961f0e8f399e65a61625"
    "e70a05728a6a985b71882f9d4a569b7373cc8a8e"
    (commit (add exampleState "a.txt").2 "first" "alice" 1000).2
    (commit (commit (add exampleState "a.txt").2 "first" "alice" 1000).2
      "second" "alice" 2000).2
    (by rfl) (by rfl) (by rfl) (by rfl)

end MyGitModel
